import Mathlib

/-!
Verification of the payload-construction layer of a push-notification client
(`jpush/push/payload.py`). Each Python builder is embedded as an executable
Lean function over a small universe of Python values; validation failures
(Python `ValueError`, the InvalidArgument error of the design) are modelled
with `Except String`.
-/

set_option autoImplicit false

namespace JPush

/-- Universe of Python values that the payload builders manipulate.
Python `None` is represented externally, by `Option PyVal` arguments:
no builder ever stores `None` inside a payload. `pbool` is kept separate
from `pint` because truthiness and rendering differ, but for `isinstance`
checks a Python `bool` IS an `int` (bool is a subclass of int). -/
inductive PyVal where
  | pstr (s : String)
  | pint (n : Int)
  | pbool (b : Bool)
  | pdict (d : List (String × PyVal))
  | plist (l : List PyVal)

/-- A payload under construction: a Python dict with string keys, modelled
as an association list in insertion order. -/
abbrev Payload := List (String × PyVal)

/-- Python truthiness of a value (`bool(v)`): empty strings, zero, `False`,
empty dicts and empty lists are falsy. -/
def pyTruthy : PyVal → Bool
  | .pstr s => !s.isEmpty
  | .pint n => n != 0
  | .pbool b => b
  | .pdict d => !d.isEmpty
  | .plist l => !l.isEmpty

/-- Python truthiness of an optional argument: `None` is falsy. -/
def truthyO : Option PyVal → Bool
  | none => false
  | some v => pyTruthy v

/-- Python dict read: first entry with the given key (dict keys are unique
in Python, so first and only). -/
def dictGet : Payload → String → Option PyVal
  | [], _ => none
  | (k0, v0) :: rest, k => if k0 = k then some v0 else dictGet rest k

/-- Python dict assignment `d[k] = v`: overwrite in place when the key is
present (keeping its position), append otherwise. -/
def dictSet : Payload → String → PyVal → Payload
  | [], k, v => [(k, v)]
  | (k0, v0) :: rest, k, v =>
      if k0 = k then (k0, v) :: rest else (k0, v0) :: dictSet rest k v

/-- The `if x is not None: payload[k] = x` idiom shared by all builders:
append the entry exactly when the argument is non-null. -/
def addOpt (p : Payload) (k : String) (v : Option PyVal) : Payload :=
  match v with
  | some x => p ++ [(k, x)]
  | none => p

/-- Embedding of `notification(alert, ios, android, winphone)`: each non-null
argument is stored under its own key, in source order; an empty payload is
rejected (`ValueError: Notification body may not be empty`). -/
def notification (alert ios android winphone : Option PyVal) :
    Except String Payload :=
  let payload :=
    addOpt (addOpt (addOpt (addOpt [] "alert" alert) "ios" ios)
      "android" android) "winphone" winphone
  if payload.isEmpty then .error "Notification body may not be empty"
  else .ok payload

/-- Embedding of `android(alert, title, builder_id, extras, priority,
category, style, alert_type, big_text, inbox, big_pic_path, uri_activity)`:
every argument is stored iff non-null, in the source insertion order
(alert first, extras last). No validation is performed. -/
def android (alert title builder_id extras priority category style
    alert_type big_text inbox big_pic_path uri_activity : Option PyVal) :
    Payload :=
  addOpt (addOpt (addOpt (addOpt (addOpt (addOpt (addOpt (addOpt (addOpt
    (addOpt (addOpt (addOpt [] "alert" alert) "title" title)
    "builder_id" builder_id) "priority" priority) "category" category)
    "style" style) "alert_type" alert_type) "big_text" big_text)
    "inbox" inbox) "big_pic_path" big_pic_path)
    "uri_activity" uri_activity) "extras" extras

/-- Embedding of `winphone(alert, title, _open_page, extras)`. The guard is
`len(list(filter(None, (alert, _open_page, title)))) != 1`: Python
`filter(None, ...)` keeps the TRUTHY elements (a `None` is falsy), so the
check counts truthy arguments, in the source tuple order
(alert, _open_page, title). The payload then stores every non-null argument. -/
def winphone (alert title _open_page extras : Option PyVal) :
    Except String Payload :=
  if ([alert, _open_page, title].filter truthyO).length != 1 then
    .error "MPNS payload must have one notification type."
  else
    .ok (addOpt (addOpt (addOpt (addOpt [] "alert" alert) "title" title)
      "_open_page" _open_page) "extras" extras)

/-- Core language of the regex `^(auto|[+-][\d]+)$` from
the compiled pattern `VALID_AUTOBADGE`, namely `^(auto|[+-][\d]+)$`: the literal `auto`,
or a `+`/`-` sign followed by one or more decimal digits. `\d` is modelled
as the ASCII digits (Python additionally accepts other Unicode decimal
digits, which this model does not represent). -/
def VALID_AUTOBADGE_core (s : String) : Bool :=
  s == "auto" ||
    (match s.toList with
     | c :: rest => (c == '+' || c == '-') && !rest.isEmpty
         && rest.all Char.isDigit
     | [] => false)

/-- Embedding of `VALID_AUTOBADGE.match(s)` under Python `re` semantics:
`$` matches at the end of the string OR just before a single newline at the
end of the string, so the pattern also accepts the core language followed by
one trailing `\n`. -/
def VALID_AUTOBADGE_match (s : String) : Bool :=
  VALID_AUTOBADGE_core s ||
    (match s.toList.getLast? with
     | some c => c == '\n' && VALID_AUTOBADGE_core (String.mk s.toList.dropLast)
     | none => false)

/-- Validation prefix of `ios(...)`: the alert and badge checks, which are the
only fallible steps. The alert, if non-null, must be a string or a dict; the
badge, if non-null, must be a string or an int (a Python `bool` passes the
`isinstance(badge, int)` check), and a string badge must match
`VALID_AUTOBADGE`. Produces the payload holding the `alert` and `badge`
entries in source order. -/
def iosFront (alert badge : Option PyVal) : Except String Payload :=
  match
    (match alert with
     | none => Except.ok ([] : Payload)
     | some a =>
       match a with
       | .pstr _ => .ok [("alert", a)]
       | .pdict _ => .ok [("alert", a)]
       | _ => .error "iOS alert must be a string or dictionary") with
  | .error e => .error e
  | .ok p1 =>
    match badge with
    | none => .ok p1
    | some b =>
      match b with
      | .pstr s =>
          if VALID_AUTOBADGE_match s then .ok (p1 ++ [("badge", b)])
          else .error "Invalid iOS autobadge value"
      | .pint _ => .ok (p1 ++ [("badge", b)])
      | .pbool _ => .ok (p1 ++ [("badge", b)])
      | _ => .error "iOS badge must be an integer or string"

/-- Infallible tail of `ios(...)`, appended after the validated alert/badge
prefix `p`, in source order: unless `sound_disable` is truthy, a `sound`
entry (the supplied value, or the literal `"default"` when null); a
`content-available`/`mutable-content` entry holding the integer 1 when the
corresponding flag is truthy; a `category` entry when category is truthy
(`if category:`); an `extras` entry when extras is non-null. -/
def iosRest (p : Payload) (sound : Option PyVal)
    (content_available mutable_content : PyVal)
    (category extras : Option PyVal) (sound_disable : PyVal) : Payload :=
  let p3 :=
    if pyTruthy sound_disable then p
    else match sound with
      | some s => p ++ [("sound", s)]
      | none => p ++ [("sound", .pstr "default")]
  let p4 :=
    if pyTruthy content_available then p3 ++ [("content-available", .pint 1)]
    else p3
  let p5 :=
    if pyTruthy mutable_content then p4 ++ [("mutable-content", .pint 1)]
    else p4
  let p6 :=
    match category with
    | some c => if pyTruthy c then p5 ++ [("category", c)] else p5
    | none => p5
  match extras with
  | some e => p6 ++ [("extras", e)]
  | none => p6

/-- Embedding of `ios(alert, badge, sound, content_available,
mutable_content, category, extras, sound_disable)`. The Python defaults are
`alert=None, badge=+1 (a string), sound=None, content_available=False,
mutable_content=False, category=None, extras=None, sound_disable=False`;
here every argument is passed explicitly. -/
def ios (alert badge sound : Option PyVal)
    (content_available mutable_content : PyVal)
    (category extras : Option PyVal) (sound_disable : PyVal) :
    Except String Payload :=
  match iosFront alert badge with
  | .error e => .error e
  | .ok p => .ok (iosRest p sound content_available mutable_content
      category extras sound_disable)

/-- Result type of `platform(*types)`: either the literal string `all` or a
list of platform names (distinct Python types). -/
inductive PlatformResult where
  | all
  | list (l : List String)

/-- The validation loop of `platform`: returns the first element outside
the tuple (ios, android, winphone), scanning in input order. -/
def platformFirstInvalid : List String → Option String
  | [] => none
  | t :: rest =>
      if t = "ios" || t = "android" || t = "winphone"
      then platformFirstInvalid rest
      else some t

/-- Embedding of `platform(*types)`: the single literal `all` is returned
unchanged; otherwise the first invalid element raises
a `ValueError` naming it, and when all elements are valid the
input list is returned as is (`[t for t in types]`). -/
def platform (types : List String) : Except String PlatformResult :=
  if types = ["all"] then .ok .all
  else
    match platformFirstInvalid types with
    | some t => .error ("Invalid platform \x27" ++ t ++ "\x27")
    | none => .ok (.list types)

/-- The valid audience selector keys, from the membership test in
`audience`. -/
def validAudKeys : List String :=
  ["tag", "tag_and", "tag_not", "alias", "registration_id", "segment",
   "abtest"]

/-- The inner loop of `audience` for one dict fragment `t`:
`for key in t: if key not in (...): raise ...; audience[key] = t[key]`,
iterating the entries in insertion order and assigning each valid key into
the accumulator. -/
def audAddFrag (acc : Payload) : Payload → Except String Payload
  | [] => .ok acc
  | (k, v) :: rest =>
      if k ∈ validAudKeys then audAddFrag (dictSet acc k v) rest
      else .error "Invalid audience"

/-- The outer loop of `audience` over the argument tuple. A dict fragment is
processed by `audAddFrag`. Iterating a string yields its characters as
one-character strings: the empty string contributes nothing, and a nonempty
string fails at its first character (no one-character string is a valid key;
were one valid, the subsequent `t[key]` would raise `TypeError`). Iterating a
list yields its elements: a string element that is a valid key would make
`t[key]` raise `TypeError`, anything else fails the membership test. A
non-iterable value raises `TypeError`. -/
def audienceLoop (acc : Payload) : List PyVal → Except String PyVal
  | [] => .ok (.pdict acc)
  | .pdict d :: rest =>
      match audAddFrag acc d with
      | .error e => .error e
      | .ok acc2 => audienceLoop acc2 rest
  | .pstr s :: rest =>
      (match s.toList with
       | [] => audienceLoop acc rest
       | c :: _ =>
           if String.mk [c] ∈ validAudKeys then .error "TypeError"
           else .error "Invalid audience")
  | .plist l :: rest =>
      (match l with
       | [] => audienceLoop acc rest
       | e :: _ =>
           match e with
           | .pstr k => if k ∈ validAudKeys then .error "TypeError"
               else .error "Invalid audience"
           | _ => .error "Invalid audience")
  | _ :: _ => .error "TypeError"

/-- Test for the wildcard audience call: the argument tuple has length one
and its sole element equals the literal string all. -/
def isAllArg : List PyVal → Bool
  | [.pstr s] => s == "all"
  | _ => false

/-- Embedding of `audience(*types)`: the single literal `all` is returned
unchanged; otherwise the fragments are merged left to right into one dict,
each key being validated against `validAudKeys` before assignment (a later
assignment to an existing key overwrites the earlier value). -/
def audience (types : List PyVal) : Except String PyVal :=
  if isAllArg types then .ok (.pstr "all")
  else audienceLoop [] types

/-! ### Association-list lemmas -/

theorem dictGet_append (p q : Payload) (k : String) :
    dictGet (p ++ q) k =
      match dictGet p k with
      | some v => some v
      | none => dictGet q k := by
  induction p with
  | nil => rfl
  | cons h t ih =>
      obtain ⟨k0, v0⟩ := h
      by_cases hk : k0 = k <;> simp [dictGet, hk, ih]

theorem dictGet_addOpt (p : Payload) (k2 : String) (v : Option PyVal)
    (k : String) :
    dictGet (addOpt p k2 v) k =
      match dictGet p k with
      | some w => some w
      | none => if k2 = k then v else none := by
  cases v with
  | none =>
      cases h : dictGet p k <;> simp [addOpt, h]
  | some x =>
      rw [addOpt, dictGet_append]
      cases h : dictGet p k <;> simp [dictGet]

theorem dictGet_dictSet (acc : Payload) (k : String) (v : PyVal)
    (k2 : String) :
    dictGet (dictSet acc k v) k2 =
      if k = k2 then some v else dictGet acc k2 := by
  induction acc with
  | nil =>
      by_cases h : k = k2 <;> simp [dictSet, dictGet, h]
  | cons hd t ih =>
      obtain ⟨k0, v0⟩ := hd
      by_cases h0 : k0 = k
      · subst h0
        by_cases h2 : k0 = k2 <;> simp [dictSet, dictGet, h2]
      · by_cases h2 : k0 = k2
        · subst h2
          simp [dictSet, dictGet, h0]
          rw [if_neg (fun h => h0 h.symm)]
        · simp [dictSet, dictGet, h0, h2, ih]

/-! ### C1, C10: the winphone builder -/

/-- C1 (amended): a call to `winphone` succeeds exactly when exactly one of
alert, title, open_page is TRUTHY (Python `filter(None, ...)` drops falsy
values, not just `None`); the extras argument never affects the check (the
right-hand side does not mention it). -/
theorem winphone_exactly_one_truthy
    (alert title _open_page extras : Option PyVal) :
    (∃ m, winphone alert title _open_page extras = .ok m) ↔
      ([alert, _open_page, title].filter truthyO).length = 1 := by
  by_cases h : ([alert, _open_page, title].filter truthyO).length = 1 <;>
    simp [winphone, bne_iff_ne, h]

/-- Witness for `winphone_exactly_one_truthy` at a concrete input. -/
theorem winphone_exactly_one_truthy_witness :
    ∃ m, winphone (some (.pstr "x")) none none none = Except.ok m :=
  (winphone_exactly_one_truthy (some (.pstr "x")) none none none).mpr
    (by decide)

/-- Counterexample to C1 as stated: alert is the empty string (non-null) and
title is non-null, so TWO of the three fields are non-null, yet the call
succeeds (the empty string is falsy, so the truthy count is one). -/
theorem winphone_nonnull_counterexample :
    winphone (some (.pstr "")) (some (.pstr "hi")) none none =
      Except.ok [("alert", .pstr ""), ("title", .pstr "hi")] := rfl

/-! ### C2: the android builder -/

/-- C2 (amended): the android payload contains the key `alert` exactly when
the supplied alert is non-null, and then holds it unchanged; in particular a
supplied empty string IS included, while a null alert leaves the key out. -/
theorem android_alert_passthrough
    (alert title builder_id extras priority category style alert_type
     big_text inbox big_pic_path uri_activity : Option PyVal) :
    dictGet (android alert title builder_id extras priority category style
      alert_type big_text inbox big_pic_path uri_activity) "alert" = alert := by
  cases alert <;> simp +decide [android, dictGet_addOpt, dictGet]

/-- Counterexample to C2 as stated: calling the android builder with a null
alert returns a mapping with no `alert` key at all. -/
theorem android_null_alert_counterexample :
    dictGet (android none none none none none none none none none none
      none none) "alert" = none := rfl

/-! ### C3: the notification assembler -/

/-- C3: `notification` fails with the empty-body error when all four fields
are null, and otherwise returns a mapping holding exactly the supplied
fields, each unchanged, and no other key. -/
theorem notification_requires_content (a i an w : Option PyVal) :
    ((a = none ∧ i = none ∧ an = none ∧ w = none) →
      notification a i an w = .error "Notification body may not be empty") ∧
    (¬(a = none ∧ i = none ∧ an = none ∧ w = none) →
      ∃ m, notification a i an w = .ok m ∧
        dictGet m "alert" = a ∧ dictGet m "ios" = i ∧
        dictGet m "android" = an ∧ dictGet m "winphone" = w ∧
        ∀ k, k ∉ (["alert", "ios", "android", "winphone"] : List String) →
          dictGet m k = none) := by
  constructor
  · rintro ⟨rfl, rfl, rfl, rfl⟩
    rfl
  · intro h
    cases a <;> cases i <;> cases an <;> cases w <;>
      first
        | (exfalso; exact h ⟨rfl, rfl, rfl, rfl⟩)
        | (refine ⟨_, rfl, rfl, rfl, rfl, rfl, ?_⟩
           intro k hk
           simp only [List.mem_cons, List.not_mem_nil, or_false,
             not_or] at hk
           obtain ⟨h1, h2, h3, h4⟩ := hk
           simp [dictGet, Ne.symm h1, Ne.symm h2, Ne.symm h3, Ne.symm h4])

/-- Witness for `notification_requires_content`: the all-null call fails. -/
theorem notification_requires_content_witness :
    notification none none none none =
      Except.error "Notification body may not be empty" :=
  (notification_requires_content none none none none).1 ⟨rfl, rfl, rfl, rfl⟩

/-- C10: when exactly one of alert, title, open_page is truthy and another of
them is non-null but falsy (for example the empty string), the `winphone`
call succeeds and the returned mapping carries a key for every non-null
argument, hence for both of them: the output can hold two of the three
mutually-exclusive notification-type fields. -/
theorem winphone_truthy_count_two_keys
    (alert title _open_page extras : Option PyVal)
    (h1 : ([alert, _open_page, title].filter truthyO).length = 1)
    (h2 : (alert.isSome ∧ truthyO alert = false) ∨
          (title.isSome ∧ truthyO title = false) ∨
          (_open_page.isSome ∧ truthyO _open_page = false)) :
    ∃ m, winphone alert title _open_page extras = .ok m ∧
      (alert.isSome → (dictGet m "alert").isSome) ∧
      (title.isSome → (dictGet m "title").isSome) ∧
      (_open_page.isSome → (dictGet m "_open_page").isSome) := by
  clear h2
  refine ⟨addOpt (addOpt (addOpt (addOpt [] "alert" alert) "title" title)
    "_open_page" _open_page) "extras" extras,
    by simp +decide [winphone, h1], ?_, ?_, ?_⟩
  · intro hs
    cases alert with
    | none => simp at hs
    | some av => simp +decide [dictGet_addOpt, dictGet]
  · intro hs
    cases title with
    | none => simp at hs
    | some tv => simp +decide [dictGet_addOpt, dictGet]
  · intro hs
    cases _open_page with
    | none => simp at hs
    | some ov => simp +decide [dictGet_addOpt, dictGet]

/-- Witness for `winphone_truthy_count_two_keys`: truthy alert, empty-string
title. -/
theorem winphone_truthy_count_two_keys_witness :
    ∃ m, winphone (some (.pstr "x")) (some (.pstr "")) none none =
        Except.ok m ∧
      ((some (PyVal.pstr "x")).isSome → (dictGet m "alert").isSome) ∧
      ((some (PyVal.pstr "")).isSome → (dictGet m "title").isSome) ∧
      ((none : Option PyVal).isSome → (dictGet m "_open_page").isSome) :=
  winphone_truthy_count_two_keys (some (.pstr "x")) (some (.pstr "")) none
    none (by decide) (Or.inr (Or.inl (by decide)))

/-! ### The ios builder: decomposition lemmas -/

theorem ios_ok_elim (alert badge sound : Option PyVal)
    (content_available mutable_content : PyVal) (category extras : Option PyVal)
    (sound_disable : PyVal) (m : Payload)
    (h : ios alert badge sound content_available mutable_content category
      extras sound_disable = .ok m) :
    ∃ p, iosFront alert badge = .ok p ∧
      m = iosRest p sound content_available mutable_content category extras
        sound_disable := by
  unfold ios at h
  cases hf : iosFront alert badge with
  | error e => rw [hf] at h; exact Except.noConfusion h
  | ok p =>
      rw [hf] at h
      injection h with h2
      exact ⟨p, rfl, h2.symm⟩

theorem iosFront_ok_get (alert badge : Option PyVal) (p : Payload)
    (h : iosFront alert badge = .ok p) (k : String)
    (hk1 : k ≠ "alert") (hk2 : k ≠ "badge") : dictGet p k = none := by
  rcases alert with _ | (s | n | b | d | l) <;>
  rcases badge with _ | (s2 | n2 | b2 | d2 | l2) <;>
    simp only [iosFront] at h <;>
    (try split at h) <;>
    first
      | exact Except.noConfusion h
      | (injection h with h
         subst h
         simp [dictGet, Ne.symm hk1, Ne.symm hk2])

theorem iosFront_ok_badge (alert : Option PyVal) (b : PyVal) (p : Payload)
    (h : iosFront alert (some b) = .ok p) : dictGet p "badge" = some b := by
  rcases alert with _ | (s | n | bb | d | l) <;>
  rcases b with s2 | n2 | b2 | d2 | l2 <;>
    simp only [iosFront] at h <;>
    (try split at h) <;>
    first
      | exact Except.noConfusion h
      | (injection h with h
         subst h
         simp [dictGet])

/-! ### C5, C6, C9: ios field policies -/

/-- C5: on every successful `ios` call, the `sound` entry is absent when
sound_disable is truthy (whatever sound was supplied), and otherwise holds
the supplied sound, or the literal `"default"` when sound is null. -/
theorem ios_sound_policy (alert badge sound : Option PyVal)
    (content_available mutable_content : PyVal)
    (category extras : Option PyVal) (sound_disable : PyVal) (m : Payload)
    (h : ios alert badge sound content_available mutable_content category
      extras sound_disable = .ok m) :
    dictGet m "sound" =
      (if pyTruthy sound_disable then none
       else some (match sound with
                  | some s => s
                  | none => .pstr "default")) := by
  obtain ⟨p, hf, rfl⟩ := ios_ok_elim _ _ _ _ _ _ _ _ _ h
  have hp : dictGet p "sound" = none :=
    iosFront_ok_get _ _ _ hf _ (by decide) (by decide)
  cases hsd : pyTruthy sound_disable <;>
    rcases sound with _ | s <;>
    cases hca : pyTruthy content_available <;>
    cases hmc : pyTruthy mutable_content <;>
    rcases category with _ | c <;> (try cases hc : pyTruthy c) <;>
    rcases extras with _ | e <;>
    simp_all [iosRest, dictGet_append, dictGet]

/-- Witness for `ios_sound_policy`: a silent push (`sound_disable` true) with
a supplied sound has no `sound` entry. -/
theorem ios_sound_policy_witness :
    dictGet [("badge", PyVal.pstr "+1")] "sound" =
      (if pyTruthy (.pbool true) then none
       else some (match (some (PyVal.pstr "cat.caf") : Option PyVal) with
                  | some s => s
                  | none => .pstr "default")) :=
  ios_sound_policy none (some (.pstr "+1")) (some (.pstr "cat.caf"))
    (.pbool false) (.pbool false) none none (.pbool true)
    [("badge", PyVal.pstr "+1")] rfl

/-- C6: on every successful `ios` call, the hyphenated `content-available`
and `mutable-content` entries hold the integer 1 exactly when the
corresponding flag is truthy, and are absent (never 0) otherwise. -/
theorem ios_hyphen_flags (alert badge sound : Option PyVal)
    (content_available mutable_content : PyVal)
    (category extras : Option PyVal) (sound_disable : PyVal) (m : Payload)
    (h : ios alert badge sound content_available mutable_content category
      extras sound_disable = .ok m) :
    dictGet m "content-available" =
      (if pyTruthy content_available then some (.pint 1) else none) ∧
    dictGet m "mutable-content" =
      (if pyTruthy mutable_content then some (.pint 1) else none) := by
  obtain ⟨p, hf, rfl⟩ := ios_ok_elim _ _ _ _ _ _ _ _ _ h
  have hp1 : dictGet p "content-available" = none :=
    iosFront_ok_get _ _ _ hf _ (by decide) (by decide)
  have hp2 : dictGet p "mutable-content" = none :=
    iosFront_ok_get _ _ _ hf _ (by decide) (by decide)
  cases hsd : pyTruthy sound_disable <;>
    rcases sound with _ | s <;>
    cases hca : pyTruthy content_available <;>
    cases hmc : pyTruthy mutable_content <;>
    rcases category with _ | c <;> (try cases hc : pyTruthy c) <;>
    rcases extras with _ | e <;>
    simp_all [iosRest, dictGet_append, dictGet]

/-- Witness for `ios_hyphen_flags`: both flags truthy. -/
theorem ios_hyphen_flags_witness :
    dictGet [("sound", PyVal.pstr "default"),
      ("content-available", PyVal.pint 1), ("mutable-content", PyVal.pint 1)]
      "content-available" =
      (if pyTruthy (.pbool true) then some (.pint 1) else none) ∧
    dictGet [("sound", PyVal.pstr "default"),
      ("content-available", PyVal.pint 1), ("mutable-content", PyVal.pint 1)]
      "mutable-content" =
      (if pyTruthy (.pbool true) then some (.pint 1) else none) :=
  ios_hyphen_flags none none none (.pbool true) (.pbool true) none none
    (.pbool false)
    [("sound", PyVal.pstr "default"), ("content-available", PyVal.pint 1),
     ("mutable-content", PyVal.pint 1)] rfl

/-- C9: on every successful `ios` call, the `category` entry holds the
supplied category exactly when it is truthy (non-empty, for the string case)
and is absent otherwise; the `extras` entry holds the supplied extras exactly
when extras is non-null and is absent otherwise. -/
theorem ios_category_extras_passthrough (alert badge sound : Option PyVal)
    (content_available mutable_content : PyVal)
    (category extras : Option PyVal) (sound_disable : PyVal) (m : Payload)
    (h : ios alert badge sound content_available mutable_content category
      extras sound_disable = .ok m) :
    dictGet m "category" =
      (if truthyO category then category else none) ∧
    dictGet m "extras" = extras := by
  obtain ⟨p, hf, rfl⟩ := ios_ok_elim _ _ _ _ _ _ _ _ _ h
  have hp1 : dictGet p "category" = none :=
    iosFront_ok_get _ _ _ hf _ (by decide) (by decide)
  have hp2 : dictGet p "extras" = none :=
    iosFront_ok_get _ _ _ hf _ (by decide) (by decide)
  cases hsd : pyTruthy sound_disable <;>
    rcases sound with _ | s <;>
    cases hca : pyTruthy content_available <;>
    cases hmc : pyTruthy mutable_content <;>
    rcases category with _ | c <;> (try cases hc : pyTruthy c) <;>
    rcases extras with _ | e <;>
    simp_all [iosRest, truthyO, dictGet_append, dictGet]

/-- Witness for `ios_category_extras_passthrough`: a non-empty category and a
non-null extras dict are both passed through. -/
theorem ios_category_extras_passthrough_witness :
    dictGet [("sound", PyVal.pstr "default"), ("category", PyVal.pstr "news"),
      ("extras", PyVal.pdict [])] "category" =
      (if truthyO (some (.pstr "news")) then some (PyVal.pstr "news")
       else none) ∧
    dictGet [("sound", PyVal.pstr "default"), ("category", PyVal.pstr "news"),
      ("extras", PyVal.pdict [])] "extras" = some (PyVal.pdict []) :=
  ios_category_extras_passthrough none none none (.pbool false) (.pbool false)
    (some (.pstr "news")) (some (.pdict [])) (.pbool false)
    [("sound", PyVal.pstr "default"), ("category", PyVal.pstr "news"),
     ("extras", PyVal.pdict [])] rfl

/-! ### C4: ios badge validation -/

/-- The alert type check of `ios` (`isinstance(alert, (string_types, dict))`),
used as a side condition so that badge validation is observed in isolation. -/
def validIosAlert : Option PyVal → Bool
  | none => true
  | some (.pstr _) => true
  | some (.pdict _) => true
  | some _ => false

theorem iosRest_preserve (p : Payload) (sound : Option PyVal)
    (content_available mutable_content : PyVal) (category extras : Option PyVal)
    (sound_disable : PyVal) (k : String) (v : PyVal)
    (h : dictGet p k = some v) :
    dictGet (iosRest p sound content_available mutable_content category extras
      sound_disable) k = some v := by
  cases hsd : pyTruthy sound_disable <;>
    rcases sound with _ | s <;>
    cases hca : pyTruthy content_available <;>
    cases hmc : pyTruthy mutable_content <;>
    rcases category with _ | c <;> (try cases hc : pyTruthy c) <;>
    rcases extras with _ | e <;>
    simp_all [iosRest, dictGet_append]

/-- C4 (amended): with a valid alert, an `ios` call with a string badge
succeeds and echoes the badge unchanged under the key `badge` exactly when
the string matches `VALID_AUTOBADGE` under Python `re.match` semantics: the
literal `auto`, or a leading `+`/`-` followed by one or more decimal digits,
in both cases optionally followed by ONE trailing newline (Python `$` also
matches just before a final newline); any other string badge fails, and a
badge that is neither an integer (Python bools included) nor a string fails
with the type error. -/
theorem ios_badge_validation (alert sound : Option PyVal)
    (content_available mutable_content : PyVal)
    (category extras : Option PyVal) (sound_disable : PyVal) (b : PyVal)
    (hA : validIosAlert alert = true) :
    (∀ s, b = .pstr s →
      (VALID_AUTOBADGE_match s = true →
        ∃ m, ios alert (some b) sound content_available mutable_content
            category extras sound_disable = .ok m ∧
          dictGet m "badge" = some (.pstr s)) ∧
      (VALID_AUTOBADGE_match s = false →
        ios alert (some b) sound content_available mutable_content category
          extras sound_disable = .error "Invalid iOS autobadge value")) ∧
    ((∀ s, b ≠ .pstr s) → (∀ n, b ≠ .pint n) → (∀ bo, b ≠ .pbool bo) →
      ios alert (some b) sound content_available mutable_content category
        extras sound_disable = .error "iOS badge must be an integer or string")
    := by
  constructor
  · rintro s rfl
    constructor
    · intro hm
      have hfront : iosFront alert (some (.pstr s)) =
          .ok (addOpt [] "alert" alert ++ [("badge", .pstr s)]) := by
        rcases alert with _ | (s0 | n0 | b0 | d0 | l0) <;>
          simp_all [iosFront, validIosAlert, addOpt]
      refine ⟨iosRest (addOpt [] "alert" alert ++ [("badge", .pstr s)])
        sound content_available mutable_content category extras
        sound_disable, ?_, ?_⟩
      · unfold ios
        rw [hfront]
      · refine iosRest_preserve _ _ _ _ _ _ _ _ _ ?_
        have : dictGet (addOpt [] "alert" alert ++ [("badge", .pstr s)])
            "badge" = some (.pstr s) := by
          rcases alert with _ | a <;> simp [addOpt, dictGet]
        exact this
    · intro hm
      rcases alert with _ | (s0 | n0 | b0 | d0 | l0) <;>
        simp_all [ios, iosFront, validIosAlert]
  · intro hs hn hb
    rcases b with s | n | bo | d | l
    · exact absurd rfl (hs s)
    · exact absurd rfl (hn n)
    · exact absurd rfl (hb bo)
    · rcases alert with _ | (s0 | n0 | b0 | d0 | l0) <;>
        simp_all [ios, iosFront, validIosAlert]
    · rcases alert with _ | (s0 | n0 | b0 | d0 | l0) <;>
        simp_all [ios, iosFront, validIosAlert]

/-- Witness for `ios_badge_validation`: the badge `auto` is accepted and
echoed; the badge `bad` is rejected. -/
theorem ios_badge_validation_witness :
    (∃ m, ios none (some (.pstr "auto")) none (.pbool false) (.pbool false)
        none none (.pbool false) = Except.ok m ∧
      dictGet m "badge" = some (.pstr "auto")) ∧
    ios none (some (.pstr "bad")) none (.pbool false) (.pbool false) none
      none (.pbool false) = Except.error "Invalid iOS autobadge value" := by
  constructor
  · exact ((ios_badge_validation none none (.pbool false) (.pbool false)
      none none (.pbool false) (.pstr "auto") (by decide)).1 "auto" rfl).1
      (by decide)
  · exact ((ios_badge_validation none none (.pbool false) (.pbool false)
      none none (.pbool false) (.pstr "bad") (by decide)).1 "bad" rfl).2
      (by decide)

/-- Counterexample to C4 as stated: the string badge is `auto` followed by a
newline, which is neither the literal `auto` nor a sign followed by digits,
yet the call succeeds and echoes it (Python `$` matches before a trailing
newline). -/
theorem ios_badge_newline_counterexample :
    ios none (some (.pstr "auto\n")) none (.pbool false) (.pbool false)
      none none (.pbool false) =
    Except.ok [("badge", PyVal.pstr "auto\n"),
      ("sound", PyVal.pstr "default")] := rfl

/-! ### C7: the platform selector -/

theorem platformFirstInvalid_none (l : List String)
    (h : ∀ t ∈ l, t = "ios" ∨ t = "android" ∨ t = "winphone") :
    platformFirstInvalid l = none := by
  induction l with
  | nil => rfl
  | cons hd tl ih =>
      have hh := h hd (List.mem_cons_self _ _)
      have ht := ih fun t ht => h t (List.mem_cons_of_mem _ ht)
      rcases hh with rfl | rfl | rfl <;> simp [platformFirstInvalid, ht]

theorem platformFirstInvalid_append (pre : List String) (t : String)
    (post : List String)
    (hpre : ∀ x ∈ pre, x = "ios" ∨ x = "android" ∨ x = "winphone")
    (ht : ¬(t = "ios" ∨ t = "android" ∨ t = "winphone")) :
    platformFirstInvalid (pre ++ t :: post) = some t := by
  induction pre with
  | nil =>
      simp only [List.nil_append, platformFirstInvalid]
      rw [if_neg]
      simp only [not_or] at ht
      simp [ht.1, ht.2.1, ht.2.2]
  | cons hd tl ih =>
      have hh := hpre hd (List.mem_cons_self _ _)
      have htl := ih fun x hx => hpre x (List.mem_cons_of_mem _ hx)
      rcases hh with rfl | rfl | rfl <;>
        simp [platformFirstInvalid, htl]

/-- C7: `platform` returns the literal `all` on the exact singleton input;
otherwise, when every element is one of ios/android/winphone it returns the
input list unchanged (order kept, no de-duplication); otherwise it fails
naming the first invalid element (every element before it being valid). -/
theorem platform_selector_spec (types : List String) :
    (types = ["all"] → platform types = .ok .all) ∧
    (types ≠ ["all"] →
      (∀ t ∈ types, t = "ios" ∨ t = "android" ∨ t = "winphone") →
      platform types = .ok (.list types)) ∧
    (∀ pre t post, types = pre ++ t :: post →
      (∀ x ∈ pre, x = "ios" ∨ x = "android" ∨ x = "winphone") →
      ¬(t = "ios" ∨ t = "android" ∨ t = "winphone") →
      types ≠ ["all"] →
      platform types = .error ("Invalid platform \x27" ++ t ++ "\x27")) := by
  refine ⟨?_, ?_, ?_⟩
  · rintro rfl
    rfl
  · intro hne hval
    simp [platform, hne, platformFirstInvalid_none types hval]
  · rintro pre t post rfl hpre ht hne
    simp [platform, hne, platformFirstInvalid_append pre t post hpre ht]

/-- Witness for `platform_selector_spec`: a valid pair is echoed, an invalid
name is rejected. -/
theorem platform_selector_spec_witness :
    platform ["ios", "winphone"] =
      Except.ok (PlatformResult.list ["ios", "winphone"]) ∧
    platform ["ios", "symbian"] =
      Except.error ("Invalid platform \x27" ++ "symbian" ++ "\x27") := by
  constructor
  · exact (platform_selector_spec ["ios", "winphone"]).2.1 (by decide)
      (by decide)
  · exact (platform_selector_spec ["ios", "symbian"]).2.2 ["ios"] "symbian"
      [] rfl (by decide) (by decide) (by decide)

/-! ### C8: the audience selector -/

theorem dictGet_of_not_mem (d : Payload) (k : String)
    (h : k ∉ d.map Prod.fst) : dictGet d k = none := by
  induction d with
  | nil => rfl
  | cons hd tl ih =>
      obtain ⟨k1, v1⟩ := hd
      simp only [List.map_cons, List.mem_cons, not_or] at h
      simp [dictGet, Ne.symm h.1, ih h.2]

theorem audAddFrag_ok (acc : Payload) (d : Payload)
    (h : ∀ q ∈ d, q.1 ∈ validAudKeys) :
    audAddFrag acc d = .ok (d.foldl (fun a q => dictSet a q.1 q.2) acc) := by
  induction d generalizing acc with
  | nil => rfl
  | cons hd tl ih =>
      obtain ⟨k, v⟩ := hd
      have hk := h _ (List.mem_cons_self _ _)
      simp [audAddFrag, hk, ih _ fun q hq => h q (List.mem_cons_of_mem _ hq)]

theorem audAddFrag_err (acc : Payload) (d : Payload)
    (h : ∃ q ∈ d, q.1 ∉ validAudKeys) :
    ∃ e, audAddFrag acc d = .error e := by
  induction d generalizing acc with
  | nil => simp at h
  | cons hd tl ih =>
      obtain ⟨k, v⟩ := hd
      by_cases hk : k ∈ validAudKeys
      · have htl : ∃ q ∈ tl, q.1 ∉ validAudKeys := by
          rcases h with ⟨q, hq, hbad⟩
          rcases List.mem_cons.mp hq with rfl | hq2
          · exact absurd hk hbad
          · exact ⟨q, hq2, hbad⟩
        simpa [audAddFrag, hk] using ih (dictSet acc k v) htl
      · exact ⟨"Invalid audience", by simp [audAddFrag, hk]⟩

theorem foldl_dictSet_get (d : Payload) (acc : Payload) (k : String)
    (hnd : (d.map Prod.fst).Nodup) :
    dictGet (d.foldl (fun a q => dictSet a q.1 q.2) acc) k =
      match dictGet d k with
      | some v => some v
      | none => dictGet acc k := by
  induction d generalizing acc with
  | nil => simp [dictGet]
  | cons hd tl ih =>
      obtain ⟨k1, v1⟩ := hd
      simp only [List.map_cons, List.nodup_cons] at hnd
      simp only [List.foldl_cons]
      rw [ih _ hnd.2]
      by_cases hk : k1 = k
      · subst hk
        have h0 : dictGet tl k1 = none := dictGet_of_not_mem _ _ hnd.1
        simp [h0, dictGet, dictGet_dictSet]
      · cases h1 : dictGet tl k <;>
          simp [dictGet, hk, dictGet_dictSet, h1]

theorem isAllArg_map_pdict (ds : List Payload) :
    isAllArg (ds.map PyVal.pdict) = false := by
  cases ds with
  | nil => rfl
  | cons d tl => cases tl <;> rfl

theorem audienceLoop_ok (ds : List Payload) (acc : Payload)
    (h : ∀ d ∈ ds, ∀ q ∈ d, q.1 ∈ validAudKeys) :
    ∃ m, audienceLoop acc (ds.map PyVal.pdict) = .ok (.pdict m) := by
  induction ds generalizing acc with
  | nil => exact ⟨acc, rfl⟩
  | cons d tl ih =>
      have hd := h d (List.mem_cons_self _ _)
      have htl := ih (d.foldl (fun a q => dictSet a q.1 q.2) acc)
        fun d2 h2 => h d2 (List.mem_cons_of_mem _ h2)
      simpa [audienceLoop, audAddFrag_ok acc d hd] using htl

theorem audienceLoop_err (ds : List Payload) (acc : Payload)
    (h : ∃ d ∈ ds, ∃ q ∈ d, q.1 ∉ validAudKeys) :
    ∃ e, audienceLoop acc (ds.map PyVal.pdict) = .error e := by
  induction ds generalizing acc with
  | nil => simp at h
  | cons d tl ih =>
      by_cases hd : ∀ q ∈ d, q.1 ∈ validAudKeys
      · have htl : ∃ d2 ∈ tl, ∃ q ∈ d2, q.1 ∉ validAudKeys := by
          rcases h with ⟨d2, hd2, q, hq, hbad⟩
          rcases List.mem_cons.mp hd2 with rfl | hm
          · exact absurd (hd q hq) hbad
          · exact ⟨d2, hm, q, hq, hbad⟩
        simpa [audienceLoop, audAddFrag_ok acc d hd] using
          ih (d.foldl (fun a q => dictSet a q.1 q.2) acc) htl
      · push_neg at hd
        obtain ⟨e, he⟩ := audAddFrag_err acc d hd
        exact ⟨e, by simp [audienceLoop, he]⟩

/-- C8: `audience` returns the literal `all` on the exact singleton input;
a list of dict fragments whose keys all belong to the seven selector names
merges into one mapping; a fragment key outside the set fails the call; and
when two fragments share a key, the later value wins silently. -/
theorem audience_selector_spec :
    (audience [.pstr "all"] = .ok (.pstr "all")) ∧
    (∀ ds : List Payload, (∀ d ∈ ds, ∀ q ∈ d, q.1 ∈ validAudKeys) →
      ∃ m, audience (ds.map PyVal.pdict) = .ok (.pdict m)) ∧
    (∀ ds : List Payload, (∃ d ∈ ds, ∃ q ∈ d, q.1 ∉ validAudKeys) →
      ∃ e, audience (ds.map PyVal.pdict) = .error e) ∧
    (∀ d1 d2 : Payload, ∀ k v1 v2,
      (∀ q ∈ d1, q.1 ∈ validAudKeys) → (∀ q ∈ d2, q.1 ∈ validAudKeys) →
      (d2.map Prod.fst).Nodup →
      dictGet d1 k = some v1 → dictGet d2 k = some v2 →
      ∃ m, audience [.pdict d1, .pdict d2] = .ok (.pdict m) ∧
        dictGet m k = some v2) := by
  refine ⟨rfl, ?_, ?_, ?_⟩
  · intro ds h
    have := audienceLoop_ok ds [] h
    simpa [audience, isAllArg_map_pdict] using this
  · intro ds h
    have := audienceLoop_err ds [] h
    simpa [audience, isAllArg_map_pdict] using this
  · intro d1 d2 k v1 v2 h1 h2 hnd hg1 hg2
    refine ⟨d2.foldl (fun a q => dictSet a q.1 q.2)
      (d1.foldl (fun a q => dictSet a q.1 q.2) []), ?_, ?_⟩
    · simp [audience, isAllArg, audienceLoop, audAddFrag_ok _ _ h1,
        audAddFrag_ok _ _ h2]
    · rw [foldl_dictSet_get _ _ _ hnd, hg2]

/-- Witness for `audience_selector_spec`: two fragments sharing the key
`tag`; the later fragment value survives. -/
theorem audience_selector_spec_witness :
    ∃ m, audience [.pdict [("tag", .plist [.pstr "sports"])],
        .pdict [("tag", .plist [.pstr "business"])]] = .ok (.pdict m) ∧
      dictGet m "tag" = some (.plist [.pstr "business"]) :=
  audience_selector_spec.2.2.2 [("tag", .plist [.pstr "sports"])]
    [("tag", .plist [.pstr "business"])] "tag" (.plist [.pstr "sports"])
    (.plist [.pstr "business"]) (by decide) (by decide) (by decide) rfl rfl

end JPush
